import Mathlib

/-!
# Verification of the pause-menu overlay orchestration core

A shallow embedding, in Lean 4, of the orchestration layer of the
pause-menu desktop application (Rust / Tauri).  The embedding covers:

* the window enumerator (`src-tauri/src/services/window_tracker.rs`):
  `enumerate_windows`, `get_visible_windows`, `track_window_changes`;
* the global-shortcut dispatcher (`src-tauri/src/lib.rs`, the
  `with_handler` closure): branch classification, the
  `WINDOW_OPERATION_IN_PROGRESS` guard and the `OVERLAY_IS_VISIBLE`
  toggle flag;
* the visibility resolution of the toggle path (`lib.rs` together with
  `MultiMonitorManager::is_any_window_visible` from
  `src-tauri/src/services/multi_monitor.rs`);
* the multi-monitor window manager (`multi_monitor.rs`):
  `show_all_windows`, `hide_all_windows`;
* the overlay commands (`src-tauri/src/commands/overlay.rs`):
  `show_overlay`, `hide_overlay`;
* the system-shortcut block list
  (`src-tauri/src/commands/shortcuts.rs`): `block_windows_shortcuts`.

OS interaction is modelled by explicit state: a window store maps labels
to window states, and per-window behaviour flags record whether the OS
honours a show/hide call (the underlying calls are asynchronous and can
silently fail, which the code compensates for with verify-and-retry).
Stateful Rust code becomes explicit state passing; fallible code returns
`Except String`.  Timestamps are abstract integers.  All definitions are
executable and all predicates decidable.
-/

/-! ## Window enumerator (`window_tracker.rs`) -/

/-- A top-level window as the OS reports it during `EnumWindows`:
handle, title (possibly empty), `IsWindowVisible` answer, and the
process name / executable path resolved for its owning process. -/
structure OSWin where
  handle : Int
  title : String
  visible : Bool
  processName : String
  exePath : String
  deriving DecidableEq, Repr

/-- The OS window subsystem as seen by one `enumerate_windows` call:
whether `EnumWindows` itself fails, and the list of top-level windows
it reports (in enumeration order). -/
structure OSState where
  enumFails : Bool
  windows : List OSWin
  deriving DecidableEq, Repr

/-- `WindowInfo` from `src-tauri/src/models/window.rs`, as produced by
`WindowTracker::enumerate_windows`.  `last_active` is an abstract
timestamp. -/
structure WindowInfo where
  handle : Int
  title : String
  process_name : String
  executable_path : String
  last_active : Int
  is_visible : Bool
  deriving DecidableEq, Repr

/-- The tracker's `cached_windows` map (`HashMap<isize, WindowInfo>`),
modelled as an association list where the most recent insertion is at
the head, so lookup-first emulates the map's last-insert-wins. -/
abbrev Cache := List (Int × WindowInfo)

/-- `cache.get(&handle)` on the modelled map. -/
def lookupCache (c : Cache) (h : Int) : Option WindowInfo :=
  (c.find? (fun p => p.1 = h)).map (fun p => p.2)

/-- The cache-update loop of `enumerate_windows` (lines 117-124):
`cache.clear()` followed by `cache.insert(window.handle, window.clone())`
for each produced entry.  Later insertions shadow earlier ones, which
the head-first representation realises. -/
def buildCache (ws : List WindowInfo) : Cache :=
  ws.foldl (fun m w => (w.handle, w) :: m) []

/-- The body of the conversion loop of `enumerate_windows`
(window_tracker.rs lines 94-115): build a `WindowInfo` from a collected
window, carrying `last_active` over from the pre-call cache when the
handle is present, else stamping `now`, and re-querying
`IsWindowVisible` for the `is_visible` field. -/
def convertEntry (cache : Cache) (now : Int) (w : OSWin) : WindowInfo :=
  { handle := w.handle
    title := w.title
    process_name := w.processName
    executable_path := w.exePath
    last_active := ((lookupCache cache w.handle).map
      (fun p => p.last_active)).getD now
    is_visible := w.visible }

/-- `WindowTracker::enumerate_windows` (window_tracker.rs lines 35-139),
for a fixed OS state `os`, the tracker's cache `cache` before the call,
and the current time `now` (`Utc::now()`).  The `enum_windows_proc`
callback collects windows that are `IsWindowVisible` and have a
non-empty title; the conversion loop (`convertEntry`) produces the
entries, and the cache is replaced wholesale.  Returns the produced
entries together with the replaced cache. -/
def enumerateWindows (os : OSState) (cache : Cache) (now : Int) :
    Except String (List WindowInfo × Cache) :=
  if os.enumFails then .error "Failed to enumerate windows" else
  let collected := os.windows.filter (fun w => w.visible && !(w.title = ""))
  let ws := collected.map (convertEntry cache now)
  .ok (ws, buildCache ws)

/-- `WindowTracker::get_visible_windows` (lines 142-145): enumerate,
then keep only the entries whose `is_visible` field is true. -/
def getVisibleWindows (os : OSState) (cache : Cache) (now : Int) :
    Except String (List WindowInfo) :=
  (enumerateWindows os cache now).map (fun p => p.1.filter (fun w => w.is_visible))

/-- The diff step of `WindowTracker::track_window_changes`
(lines 266-283): given the handles in the cache at diff time and the
current entries, `opened` is the current entries whose handle is not
among the cached handles, `closed` the cached handles absent from the
current entries. -/
def diffStep (cachedHandles : List Int) (cur : List WindowInfo) :
    List WindowInfo × List Int :=
  let currentHandles := cur.map (fun w => w.handle)
  let opened := cur.filter (fun w => !(cachedHandles.contains w.handle))
  let closed := cachedHandles.filter (fun h => !(currentHandles.contains h))
  (opened, closed)

/-- `WindowTracker::track_window_changes` (lines 264-294): first calls
`enumerate_windows` — which replaces `cached_windows` with the current
snapshot — and then diffs the current entries against the keys of that
(already replaced) cache. -/
def trackWindowChanges (os : OSState) (cache : Cache) (now : Int) :
    Except String (List WindowInfo × List Int) :=
  match enumerateWindows os cache now with
  | .error e => .error e
  | .ok (cur, newCache) => .ok (diffStep (newCache.map (fun p => p.1)) cur)

/-! ## Shortcut dispatcher toggle machine (`lib.rs`)

The global-shortcut handler runs on one OS callback thread; the
show/hide work is spawned onto the async runtime.  We model the handler
together with the completion of the spawned task as a transition system:
handler invocations and task completions are the events.  `osVis`
abstracts the answer of the OS visibility queries performed at the start
of the toggle branch (tracked monitor windows, then the main window; see
the resolution model below), and is updated when a spawned show/hide
task completes. -/

/-- A toggle operation dispatched by the handler. -/
inductive Op where
  | doShow
  | doHide
  deriving DecidableEq, Repr

/-- Events of the dispatcher machine: a primary-toggle hotkey press, an
arrow-key hotkey press (standing in for the arrow / dismiss / number /
block branches, all of which end with
`WINDOW_OPERATION_IN_PROGRESS.store(false)`), and the completion of the
spawned `show_overlay` / `hide_overlay` task with its success flag. -/
inductive DispatchEv where
  | toggle
  | arrow
  | opComplete (ok : Bool)
  deriving DecidableEq, Repr

/-- Dispatcher state: `guard` is `WINDOW_OPERATION_IN_PROGRESS`, `flag`
is `OVERLAY_IS_VISIBLE`, `osVis` the abstract OS-reported overlay
visibility, `pending` the spawned operation not yet completed,
`executed` the operations dispatched so far (most recent first) and
`dropped` the number of toggle presses discarded by the guard. -/
structure DispatchState where
  guard : Bool
  flag : Bool
  osVis : Bool
  pending : Option Op
  executed : List Op
  dropped : Nat
  deriving DecidableEq, Repr

/-- The initial dispatcher state: both statics start `false`, nothing
visible, nothing in flight. -/
def initDispatch : DispatchState :=
  { guard := false, flag := false, osVis := false, pending := none
    executed := [], dropped := 0 }

/-- One event of the dispatcher machine (lib.rs lines 85-397).

* `arrow`: the arrow branch (lines 91-125) emits to the frontend and
  unconditionally stores `false` into `WINDOW_OPERATION_IN_PROGRESS`;
  the dismiss / number / block branches do the same.
* `toggle`: the toggle path first does
  `WINDOW_OPERATION_IN_PROGRESS.swap(true)` (line 229) and skips the
  event if the guard was already set; otherwise it resolves visibility
  (OS queries, falling back to `OVERLAY_IS_VISIBLE` when they report
  hidden — lines 239-285), stores the new `OVERLAY_IS_VISIBLE` value
  (lines 291 / 330) and spawns `hide_overlay` / `show_overlay`.
* `opComplete ok`: the spawned task finishes.  On success the OS
  visibility now matches the operation; on failure the error arm stores
  `false` into `OVERLAY_IS_VISIBLE` (lines 323 / 374).  Either way the
  task stores `false` into the guard (lines 326 / 348 / 375). -/
def stepDispatch (s : DispatchState) : DispatchEv → DispatchState
  | .arrow => { s with guard := false }
  | .toggle =>
    if s.guard then { s with dropped := s.dropped + 1 }
    else
      let vis := s.osVis || s.flag
      if vis then
        { s with guard := true, flag := false, pending := some .doHide
                 executed := .doHide :: s.executed }
      else
        { s with guard := true, flag := true, pending := some .doShow
                 executed := .doShow :: s.executed }
  | .opComplete ok =>
    match s.pending with
    | none => s
    | some .doHide =>
      if ok then { s with osVis := false, pending := none, guard := false }
      else { s with flag := false, pending := none, guard := false }
    | some .doShow =>
      if ok then { s with osVis := true, pending := none, guard := false }
      else { s with flag := false, pending := none, guard := false }

/-- Run the dispatcher machine over a list of events. -/
def runDispatch (s : DispatchState) (evs : List DispatchEv) : DispatchState :=
  evs.foldl stepDispatch s

/-- No two adjacent operations in the list are equal (the executed
operations, most recent first, alternate between show and hide; the
property is invariant under reversal, so it states alternation of the
chronological sequence as well). -/
def alternatesB : List Op → Bool
  | [] => true
  | [_] => true
  | a :: b :: t => decide (a ≠ b) && alternatesB (b :: t)

/-! ## Visibility resolution of the toggle path (`lib.rs` lines 239-285,
`multi_monitor.rs` lines 280-301) -/

/-- The windows the resolution can query: label to query outcome.
`some (some v)` — the window exists and `is_visible()` answers `Ok(v)`;
`some none` — the window exists but the query errors;
`none` — no window with that label. -/
abbrev QueryApp := List (String × Option Bool)

/-- `app.get_webview_window(label)` on the query model. -/
def getQuery (app : QueryApp) (label : String) : Option (Option Bool) :=
  (app.find? (fun p => p.1 = label)).map (fun p => p.2)

/-- `MultiMonitorManager::is_any_window_visible`
(multi_monitor.rs lines 280-301): true as soon as some labelled window
exists and reports `Ok(true)`; missing windows and query errors are
skipped, and an exhausted list yields false. -/
def isAnyWindowVisible (app : QueryApp) (labels : List String) : Bool :=
  labels.any (fun l =>
    match getQuery app l with
    | some (some v) => v
    | _ => false)

/-- The monitor-window labels used by the scan loops:
`"overlay_monitor_0"` … `"overlay_monitor_9"`. -/
def monitorLabels : List String :=
  (List.range 10).map (fun i => "overlay_monitor_" ++ toString i)

/-- The scan of lib.rs lines 251-259: when the managed label list is
empty, probe `overlay_monitor_0..9` for existing windows. -/
def scanMonitorWindows (app : QueryApp) : List String :=
  monitorLabels.filter (fun l => (getQuery app l).isSome)

/-- The label list the toggle branch checks (lib.rs lines 242-260):
the managed list, or — when it is empty — the scanned monitor
windows. -/
def effectiveLabels (app : QueryApp) (stateLabels : List String) : List String :=
  if stateLabels.isEmpty then scanMonitorWindows app else stateLabels

/-- The visibility resolution of the toggle branch
(lib.rs lines 239-285): take the managed label list (scanning for
monitor windows when it is empty); if the resulting list is non-empty
ask `is_any_window_visible`; if that gave false, ask the main window
(keeping false when it is missing or its query errors); finally, if
everything reported hidden but `OVERLAY_IS_VISIBLE` is set, use the
toggle flag and report visible. -/
def resolveVisibility (app : QueryApp) (stateLabels : List String)
    (flag : Bool) : Bool :=
  let labels := effectiveLabels app stateLabels
  let v1 := if !labels.isEmpty then isAnyWindowVisible app labels else false
  let v2 :=
    if !v1 then
      match getQuery app "main" with
      | some (some v) => v
      | _ => v1
    else v1
  if !v2 && flag then true else v2

/-- `main` answered `Ok(true)` to `is_visible()`. -/
def mainReportsVisible (app : QueryApp) : Bool :=
  getQuery app "main" = some (some true)

/-! ## Shortcut classification (`lib.rs` handler branches) and the
system-shortcut block list (`shortcuts.rs`) -/

/-- The key codes the handler and the block list mention
(`tauri_plugin_global_shortcut::Code`), plus a catch-all for any other
key (e.g. `Space`). -/
inductive KeyCode where
  | arrowUp | arrowDown | arrowLeft | arrowRight
  | escape
  | digit1 | digit2 | digit3 | digit4 | digit5 | digit6 | digit7
  | metaLeft | metaRight
  | keyA | keyI | keyX | keyK | keyN | keyS | keyT
  | printScreen
  | space
  | keyO
  deriving DecidableEq, Repr

/-- The modifier set of a shortcut (`Modifiers`): which of SUPER,
SHIFT, ALT, CONTROL are held. -/
structure Mods where
  sup : Bool
  shift : Bool
  alt : Bool
  ctrl : Bool
  deriving DecidableEq, Repr

/-- No modifiers held. -/
def Mods.none : Mods := ⟨false, false, false, false⟩

/-- A hotkey combination as delivered to the handler. -/
structure SKey where
  mods : Mods
  key : KeyCode
  deriving DecidableEq, Repr

/-- `is_arrow_key` (lib.rs lines 86-89). -/
def isArrowKey (k : KeyCode) : Bool :=
  match k with
  | .arrowUp | .arrowDown | .arrowLeft | .arrowRight => true
  | _ => false

/-- `is_number_key` (lib.rs lines 165-169): ALT held and a digit 1-7. -/
def isNumberKey (sc : SKey) : Bool :=
  sc.mods.alt &&
  (match sc.key with
   | .digit1 | .digit2 | .digit3 | .digit4 | .digit5 | .digit6 | .digit7 => true
   | _ => false)

/-- `is_windows_shortcut` (lib.rs lines 195-209): the Win key alone
(`MetaLeft`/`MetaRight` as the key code), or SUPER held without SHIFT
together with one of the letters A I X K N S T.  The SHIFT exclusion is
what lets Win+Shift+S (the screenshot tool) through. -/
def isWindowsShortcut (sc : SKey) : Bool :=
  let isWinKey := sc.key = .metaLeft || sc.key = .metaRight
  let isWinCombo := sc.mods.sup && !sc.mods.shift &&
    (match sc.key with
     | .keyA | .keyI | .keyX | .keyK | .keyN | .keyS | .keyT => true
     | _ => false)
  isWinKey || isWinCombo

/-- `is_print_screen` (lib.rs line 212). -/
def isPrintScreen (sc : SKey) : Bool := sc.key = .printScreen

/-- The screenshot pass-through test of lib.rs line 222:
`PrintScreen`, or SUPER and SHIFT held with `KeyS`. -/
def isScreenshotCombo (sc : SKey) : Bool :=
  isPrintScreen sc || (sc.mods.sup && sc.mods.shift && sc.key = .keyS)

/-- Which branch of the handler a delivered event takes
(first match wins, mirroring the sequence of early returns in the
`with_handler` closure). -/
inductive HandlerBranch where
  /-- Arrow branch (lines 91-125): emit a direction if the overlay is
  visible; consumed; no controller method. -/
  | arrowNav
  /-- Escape branch (lines 130-162): spawn `hide_overlay` if visible. -/
  | dismiss
  /-- Number branch (lines 171-191): emit the screen index; consumed. -/
  | screenSelect (n : Nat)
  /-- Block branch (line 215-219): consumed and dropped; no controller
  method. -/
  | blocked
  /-- Screenshot branch (lines 222-226): returns without doing
  anything, so the (never registered) combination stays with the OS;
  no controller method. -/
  | screenshotPassThrough
  /-- The guarded toggle path (lines 229-397). -/
  | togglePath
  deriving DecidableEq, Repr

/-- The classification performed by the handler on a pressed hotkey
(lib.rs lines 85-232; every condition below carries the source's
`event.state == ShortcutState::Pressed` conjunct, which holds here). -/
def classifyPressed (sc : SKey) : HandlerBranch :=
  if isArrowKey sc.key then .arrowNav
  else if sc.key = .escape then .dismiss
  else if isNumberKey sc then
    .screenSelect
      (match sc.key with
       | .digit1 => 1 | .digit2 => 2 | .digit3 => 3 | .digit4 => 4
       | .digit5 => 5 | .digit6 => 6 | .digit7 => 7 | _ => 0)
  else if isWindowsShortcut sc && !isPrintScreen sc then .blocked
  else if isScreenshotCombo sc then .screenshotPassThrough
  else .togglePath

/-- The `shortcuts_to_block` list of
`block_windows_shortcuts` (shortcuts.rs lines 251-271): the registered
system-shortcut blockers. -/
def shortcutsToBlock : List SKey :=
  [ ⟨Mods.none, .metaLeft⟩
  , ⟨Mods.none, .metaRight⟩
  , ⟨{ Mods.none with sup := true }, .metaLeft⟩
  , ⟨{ Mods.none with sup := true }, .metaRight⟩
  , ⟨{ Mods.none with sup := true }, .keyA⟩
  , ⟨{ Mods.none with sup := true }, .keyI⟩
  , ⟨{ Mods.none with sup := true }, .keyX⟩
  , ⟨{ Mods.none with sup := true }, .keyK⟩
  , ⟨{ Mods.none with sup := true }, .keyN⟩
  , ⟨{ Mods.none with sup := true }, .keyS⟩
  , ⟨{ Mods.none with sup := true }, .keyT⟩ ]

/-- The screenshot combination Super+Shift+S. -/
def superShiftS : SKey := ⟨{ Mods.none with sup := true, shift := true }, .keyS⟩

/-- The dedicated print key, with any modifier set. -/
def printKey (m : Mods) : SKey := ⟨m, .printScreen⟩

/-! ## Overlay window world (`multi_monitor.rs`, `commands/overlay.rs`)

Native windows are modelled as label-indexed states with behaviour
flags: the OS show/hide primitives are asynchronous and can silently
fail, so a window records whether `show()` returns an error
(`showErr`), whether a successful `show()` nevertheless leaves it
invisible (`showStuck`), and symmetrically `hideStuck` for hide calls.
`is_visible()` queries answer from the stored `visible` field.  Every
operation additionally appends to a trace of OS calls, so that theorems
can speak about how often a primitive was invoked. -/

/-- One native window: current visibility and fullscreen flag, plus the
behaviour of the OS primitives on it. -/
structure WinB where
  visible : Bool
  fullscreen : Bool
  showErr : Bool
  showStuck : Bool
  hideStuck : Bool
  deriving DecidableEq, Repr

/-- The window store: label to window state. -/
abbrev World := List (String × WinB)

/-- `app.get_webview_window(label)`. -/
def getWin (world : World) (l : String) : Option WinB :=
  (world.find? (fun p => p.1 = l)).map (fun p => p.2)

/-- Replace the state of the window with label `l`. -/
def setWin (world : World) (l : String) (w : WinB) : World :=
  world.map (fun p => if p.1 = l then (l, w) else p)

/-- The OS-reported visibility of the window with label `l`
(`none` when no such window exists). -/
def visOf (world : World) (l : String) : Option Bool :=
  (getWin world l).map (fun w => w.visible)

/-- Effect of a `window.show()` call that returned `Ok`: the window
becomes visible unless the OS silently ignores the call. -/
def applyShow (w : WinB) : WinB :=
  { w with visible := if w.showStuck then w.visible else true }

/-- Effect of a `window.hide()` call (or a `ShowWindow(SW_HIDE)` through
the raw Windows API): the window becomes invisible unless the OS
silently ignores the call. -/
def applyHide (w : WinB) : WinB :=
  { w with visible := if w.hideStuck then w.visible else false }

/-- The OS calls issued by the overlay code, as trace events. -/
inductive Ev where
  | setSize (l : String)
  | setPosition (l : String)
  | setAlwaysOnTop (l : String) (b : Bool)
  | setFullscreen (l : String) (b : Bool)
  | setFocusable (l : String)
  | showCall (l : String)
  | hideCall (l : String)
  | winApiFocus (l : String)
  | winApiHide (l : String)
  | setFocus (l : String)
  | positionSpan (l : String)
  | sleepMs (n : Nat)
  | queryVisible (l : String)
  deriving DecidableEq, Repr

/-- Trace events that mutate a window (everything except sleeping and
visibility queries). -/
def isMutationEv : Ev → Bool
  | .sleepMs _ => false
  | .queryVisible _ => false
  | _ => true

/-- The body of the per-label loop of
`MultiMonitorManager::show_all_windows` in the branch where monitor
enumeration succeeded (multi_monitor.rs lines 110-201), for one
existing window: re-apply the monitor bounds when the window's index
has a monitor with readable info (`doPos`), set always-on-top, clear
the fullscreen flag, set focusable, and call `show()`.  When `show()`
returns `Ok`, force focus, sleep 100 ms, re-query visibility, and when
the window is still not visible call `show()` once more (and only
once: nothing is verified after the retry). -/
def showOneWindow (l : String) (doPos : Bool) (w : WinB) : WinB × List Ev :=
  let posEvs := if doPos then [Ev.setSize l, Ev.setPosition l] else []
  let evs1 := posEvs ++ [Ev.setAlwaysOnTop l true, Ev.setFullscreen l false,
    Ev.setFocusable l]
  let w1 := { w with fullscreen := false }
  if w1.showErr then
    (w1, evs1 ++ [Ev.showCall l])
  else
    let w2 := applyShow w1
    let evsOk := [Ev.showCall l, Ev.winApiFocus l, Ev.setFocus l,
      Ev.sleepMs 100, Ev.queryVisible l]
    if w2.visible then
      (w2, evs1 ++ evsOk)
    else
      (applyShow w2, evs1 ++ evsOk ++ [Ev.showCall l])

/-- The per-label loop of `show_all_windows` in the branch where
monitor enumeration succeeded (multi_monitor.rs lines 107-203): run
`showOneWindow` on every labelled window that exists — `mons` records,
per monitor index, whether `get_monitor_info` succeeds, and `idx` is
the enumeration index — and skip (log-only) missing windows; per-window
failures never stop the loop. -/
def showAllGo (world : World) (mons : List Bool) (idx : Nat) :
    List String → World × List Ev
  | [] => (world, [])
  | l :: rest =>
    match getWin world l with
    | none => showAllGo world mons (idx + 1) rest
    | some w =>
      let one := showOneWindow l (mons.getD idx false) w
      let r := showAllGo (setWin world l one.1) mons (idx + 1) rest
      (r.1, one.2 ++ r.2)

/-- The fallback loop of `show_all_windows` when monitor enumeration
fails (multi_monitor.rs lines 204-214): just set always-on-top, clear
fullscreen and show each existing window, ignoring call errors; no
verification. -/
def showAllFallbackGo (world : World) : List String → World × List Ev
  | [] => (world, [])
  | l :: rest =>
    match getWin world l with
    | none => showAllFallbackGo world rest
    | some w =>
      let w1 := { w with fullscreen := false }
      let w2 := if w1.showErr then w1 else applyShow w1
      let r := showAllFallbackGo (setWin world l w2) rest
      (r.1, [Ev.setAlwaysOnTop l true, Ev.setFullscreen l false,
        Ev.showCall l] ++ r.2)

/-- `MultiMonitorManager::show_all_windows`
(multi_monitor.rs lines 103-231).  `monsRes` is the result of
`get_all_monitors`, with per-monitor `get_monitor_info` success flags.
Both branches end in `Ok(())`. -/
def showAllWindows (world : World) (monsRes : Except String (List Bool))
    (labels : List String) : World × List Ev × Except String Unit :=
  match monsRes with
  | .ok mons =>
    let r := showAllGo world mons 0 labels
    (r.1, r.2, .ok ())
  | .error _ =>
    let r := showAllFallbackGo world labels
    (r.1, r.2, .ok ())

/-- The per-label loop of `MultiMonitorManager::hide_all_windows`
(multi_monitor.rs lines 236-275): for each existing window, call
`hide()`, clear the fullscreen flag, force-hide through the raw Windows
API, sleep 50 ms, re-query — and when the window is still visible, call
`hide()` once more.  Missing windows are logged and skipped. -/
def hideAllGo (world : World) : List String → World × List Ev
  | [] => (world, [])
  | l :: rest =>
    match getWin world l with
    | none => hideAllGo world rest
    | some w =>
      let w1 := { applyHide w with fullscreen := false }
      let w2 := applyHide w1
      let evs1 := [Ev.hideCall l, Ev.setFullscreen l false, Ev.winApiHide l,
        Ev.sleepMs 50, Ev.queryVisible l]
      if w2.visible then
        let w3 := applyHide w2
        let r := hideAllGo (setWin world l w3) rest
        (r.1, evs1 ++ [Ev.hideCall l] ++ r.2)
      else
        let r := hideAllGo (setWin world l w2) rest
        (r.1, evs1 ++ r.2)

/-- `MultiMonitorManager::hide_all_windows`
(multi_monitor.rs lines 234-277): runs the per-label loop and returns
`Ok(())`. -/
def hideAllWindows (world : World) (labels : List String) :
    World × List Ev × Except String Unit :=
  let r := hideAllGo world labels
  (r.1, r.2, .ok ())

/-- `l.starts_with("overlay_monitor_")`, expressed on the character
lists so that it evaluates by kernel reduction. -/
def isMonitorLabel (l : String) : Bool :=
  List.isPrefixOf "overlay_monitor_".data l.data

/-- The scan loops of overlay.rs (lines 69-75 and 280-288): probe
`overlay_monitor_0..9` for windows that exist in the store. -/
def worldScanLabels (world : World) : List String :=
  monitorLabels.filter (fun l => (getWin world l).isSome)

/-- Label resolution of `show_overlay` (overlay.rs lines 51-86): take
the managed list; when it is empty or holds no monitor label, clear it
and rescan for monitor windows. -/
def finalLabelsShow (world : World) (stateLabels : List String) : List String :=
  if stateLabels.isEmpty || !(stateLabels.any isMonitorLabel) then
    worldScanLabels world
  else stateLabels

/-- Label resolution of `hide_overlay` (overlay.rs lines 267-289): like
the show path, but the scan appends found monitor windows to the
managed list instead of replacing it, skipping duplicates. -/
def finalLabelsHide (world : World) (stateLabels : List String) : List String :=
  if stateLabels.isEmpty || !(stateLabels.any isMonitorLabel) then
    stateLabels ++ (worldScanLabels world).filter
      (fun l => !(stateLabels.contains l))
  else stateLabels

/-- The aggressive main-window hide at the start of the multi-monitor
branch of `show_overlay` (overlay.rs lines 93-133): hide, clear
fullscreen, force-hide through the Windows API, sleep 100 ms, re-query,
and when still visible hide and force-hide once more. -/
def hideMainBeforeShow (world : World) : World × List Ev :=
  match getWin world "main" with
  | none => (world, [])
  | some w =>
    let w1 := { applyHide w with fullscreen := false }
    let w2 := applyHide w1
    let evs := [Ev.hideCall "main", Ev.setFullscreen "main" false,
      Ev.winApiHide "main", Ev.sleepMs 100, Ev.queryVisible "main"]
    if w2.visible then
      (setWin world "main" (applyHide (applyHide w2)),
        evs ++ [Ev.hideCall "main", Ev.winApiHide "main"])
    else
      (setWin world "main" w2, evs)

/-- The post-hoc main-window re-check of `show_overlay`
(overlay.rs lines 148-156): query the main window and force it hidden
again if it became visible. -/
def recheckMainHidden (world : World) : World × List Ev :=
  match getWin world "main" with
  | none => (world, [])
  | some w =>
    if w.visible then
      (setWin world "main" { applyHide w with fullscreen := false },
        [Ev.queryVisible "main", Ev.hideCall "main",
          Ev.setFullscreen "main" false])
    else
      (world, [Ev.queryVisible "main"])

/-- `show_overlay` (overlay.rs lines 11-230) on the window store.
Inputs beyond the store: the managed label list, the
`get_all_monitors` result (with per-monitor info-success flags),
whether `get_virtual_desktop_bounds` succeeds, whether the raw window
handle is obtainable, and whether `position_window_for_all_monitors`
succeeds.  The shortcut (un)registration steps at the top do not touch
windows and are omitted from the trace.  In the multi-monitor branch:
aggressively hide the main window, show all monitor windows, then
re-check that the main window stayed hidden.  In the fallback branch:
set the main window always-on-top, span the virtual desktop when there
are several monitors (falling back to fullscreen when positioning is
impossible), fullscreen otherwise, then `show()` — whose error, unlike
every per-window error of the multi-monitor path, propagates. -/
def showOverlay (world : World) (stateLabels : List String)
    (monsRes : Except String (List Bool)) (vdBoundsOk hwndOk posSpanOk : Bool) :
    World × List Ev × Except String Unit :=
  let finalLabels := finalLabelsShow world stateLabels
  if !finalLabels.isEmpty && finalLabels.any isMonitorLabel then
    let r1 := hideMainBeforeShow world
    let r2 := showAllWindows r1.1 monsRes finalLabels
    match r2.2.2 with
    | .error e => (r2.1, r1.2 ++ r2.2.1, .error ("Failed to show monitor windows: " ++ e))
    | .ok _ =>
      let r3 := recheckMainHidden r2.1
      (r3.1, r1.2 ++ r2.2.1 ++ r3.2, .ok ())
  else
    match getWin world "main" with
    | none => (world, [], .error "Main window not found")
    | some w =>
      let fsPart : List Ev × WinB :=
        match monsRes with
        | .ok mons =>
          if mons.length > 1 then
            if vdBoundsOk then
              if hwndOk then
                if posSpanOk then ([Ev.positionSpan "main"], w)
                else ([Ev.positionSpan "main", Ev.setFullscreen "main" true],
                  { w with fullscreen := true })
              else ([Ev.setFullscreen "main" true], { w with fullscreen := true })
            else ([Ev.setFullscreen "main" true], { w with fullscreen := true })
          else ([Ev.setFullscreen "main" true], { w with fullscreen := true })
        | .error _ => ([Ev.setFullscreen "main" true], { w with fullscreen := true })
      let evs := [Ev.setAlwaysOnTop "main" true] ++ fsPart.1 ++ [Ev.showCall "main"]
      let w1 := fsPart.2
      if w1.showErr then
        (setWin world "main" w1, evs, .error "show failed")
      else
        (setWin world "main" (applyShow w1), evs, .ok ())

/-- The verification pass of `hide_overlay` after `hide_all_windows`
(overlay.rs lines 297-320): sleep 200 ms, then for every labelled
window that exists, re-query and force-hide again when still
visible. -/
def hideVerifyGo (world : World) : List String → World × List Ev
  | [] => (world, [])
  | l :: rest =>
    match getWin world l with
    | none => hideVerifyGo world rest
    | some w =>
      if w.visible then
        let r := hideVerifyGo (setWin world l (applyHide (applyHide w))) rest
        (r.1, [Ev.queryVisible l, Ev.hideCall l, Ev.winApiHide l] ++ r.2)
      else
        let r := hideVerifyGo world rest
        (r.1, [Ev.queryVisible l] ++ r.2)

/-- The final main-window hide of `hide_overlay`
(overlay.rs lines 324-351): hide, clear fullscreen, force-hide through
the Windows API, sleep 100 ms, re-query, hide once more when still
visible. -/
def hideMainFinal (world : World) : World × List Ev :=
  match getWin world "main" with
  | none => (world, [])
  | some w =>
    let w1 := { applyHide w with fullscreen := false }
    let w2 := applyHide w1
    let evs := [Ev.hideCall "main", Ev.setFullscreen "main" false,
      Ev.winApiHide "main", Ev.sleepMs 100, Ev.queryVisible "main"]
    if w2.visible then
      (setWin world "main" (applyHide w2), evs ++ [Ev.hideCall "main"])
    else
      (setWin world "main" w2, evs)

/-- `hide_overlay` (overlay.rs lines 233-355) on the window store: the
shortcut unregistration steps do not touch windows; resolve the label
list (appending scanned monitor windows), hide all labelled windows
with verification when a monitor window is among them, then
aggressively hide the main window.  Always returns `Ok(())` — the only
`?` is on `hide_all_windows`, which never errs. -/
def hideOverlay (world : World) (stateLabels : List String) :
    World × List Ev × Except String Unit :=
  let labels := finalLabelsHide world stateLabels
  if !labels.isEmpty && labels.any isMonitorLabel then
    let r1 := hideAllWindows world labels
    match r1.2.2 with
    | .error e => (r1.1, r1.2.1, .error e)
    | .ok _ =>
      let r2 := hideVerifyGo r1.1 labels
      let r3 := hideMainFinal r2.1
      (r3.1, r1.2.1 ++ [Ev.sleepMs 200] ++ r2.2 ++ r3.2, .ok ())
  else
    let r3 := hideMainFinal world
    (r3.1, r3.2, .ok ())

/-! ## Theorems: window enumerator -/

/-- The keys of the rebuilt cache are exactly the handles of the
produced entries, in reverse insertion order. -/
theorem buildCache_keys (ws : List WindowInfo) :
    (buildCache ws).map Prod.fst = (ws.map (fun w => w.handle)).reverse := by
  have aux : ∀ (ws : List WindowInfo) (acc : Cache),
      (ws.foldl (fun m w => (w.handle, w) :: m) acc).map Prod.fst
        = (ws.map (fun w => w.handle)).reverse ++ acc.map Prod.fst := by
    intro ws
    induction ws with
    | nil => intro acc; simp
    | cons w t ih =>
      intro acc
      simp [List.foldl_cons, ih ((w.handle, w) :: acc), List.reverse_cons,
        List.append_assoc]
  simpa using aux ws []

/-- C1. The diff computed by `track_window_changes` is the symmetric
set difference of the current entries against the cache at diff time:
`opened` = current entries whose handle is absent from the cache keys,
`closed` = cache keys absent from the current handles.  Because
`enumerate_windows` has already replaced that cache with the current
snapshot when the diff is taken, the cache keys are exactly the current
handles, so both parts are the diff of a snapshot against itself and the
call always returns `(∅, ∅)`.  The first conjunct states the
self-diff law for the diff step in isolation; the second exhibits the
replaced cache as the `A` of the diff; the third is the resulting
constant answer. -/
theorem trackWindowChanges_self_diff_empty (os : OSState) (cache : Cache)
    (now : Int) (h : os.enumFails = false) :
    (∀ cur : List WindowInfo, diffStep (cur.map (fun w => w.handle)) cur = ([], [])) ∧
    (∃ cur newCache, enumerateWindows os cache now = .ok (cur, newCache) ∧
      trackWindowChanges os cache now
        = .ok (diffStep (newCache.map Prod.fst) cur)) ∧
    trackWindowChanges os cache now = .ok ([], []) := by
  have diffEmpty : ∀ (A : List Int) (cur : List WindowInfo),
      (∀ x : Int, x ∈ A ↔ x ∈ cur.map (fun w => w.handle)) →
      diffStep A cur = ([], []) := by
    intro A cur hmem
    unfold diffStep
    have h1 : cur.filter (fun w => !(A.contains w.handle)) = [] := by
      rw [List.filter_eq_nil_iff]
      intro w hw
      have : w.handle ∈ A := (hmem _).mpr (List.mem_map_of_mem _ hw)
      simp [List.contains, List.elem_iff, this]
    have h2 : A.filter (fun k => !((cur.map (fun w => w.handle)).contains k)) = [] := by
      rw [List.filter_eq_nil_iff]
      intro k hk
      have : k ∈ cur.map (fun w => w.handle) := (hmem _).mp hk
      simp [List.contains, List.elem_iff, this]
    dsimp only
    rw [h1, h2]
  have selfDiff : ∀ cur : List WindowInfo,
      diffStep (cur.map (fun w => w.handle)) cur = ([], []) := by
    intro cur
    exact diffEmpty _ cur (fun x => Iff.rfl)
  refine ⟨selfDiff, ?_, ?_⟩
  · refine ⟨(os.windows.filter (fun w => w.visible && !(w.title = ""))).map
        (convertEntry cache now),
      buildCache ((os.windows.filter (fun w => w.visible && !(w.title = ""))).map
        (convertEntry cache now)),
      ?_, ?_⟩
    · simp [enumerateWindows, h]
    · simp [trackWindowChanges, enumerateWindows, h]
  · have keyEq : ∀ ws : List WindowInfo,
        diffStep ((buildCache ws).map Prod.fst) ws = ([], []) := by
      intro ws
      refine diffEmpty _ ws ?_
      intro x
      rw [buildCache_keys]
      exact List.mem_reverse
    simp [trackWindowChanges, enumerateWindows, h, keyEq]


/-- A sample OS state: two titled visible windows, one untitled visible
window, one invisible window. -/
def osSample : OSState :=
  { enumFails := false
    windows :=
      [ { handle := 1, title := "Notepad", visible := true
          processName := "notepad.exe", exePath := "C:/notepad.exe" }
      , { handle := 2, title := "", visible := true
          processName := "svchost.exe", exePath := "C:/svchost.exe" }
      , { handle := 3, title := "Editor", visible := true
          processName := "code.exe", exePath := "C:/code.exe" }
      , { handle := 4, title := "Ghost", visible := false
          processName := "ghost.exe", exePath := "C:/ghost.exe" } ] }

/-- A sample pre-call cache: handle 1 was seen before (timestamp 17),
handle 3 is new. -/
def cacheSample : Cache :=
  [ (1, { handle := 1, title := "Notepad", process_name := "notepad.exe"
          executable_path := "C:/notepad.exe", last_active := 17
          is_visible := true }) ]

/-- The entries `enumerate_windows` produces on `osSample` with
`cacheSample` at time 99: window 1 keeps timestamp 17, window 3 is
stamped 99; windows 2 (untitled) and 4 (invisible) are dropped. -/
def wsSample : List WindowInfo :=
  [ { handle := 1, title := "Notepad", process_name := "notepad.exe"
      executable_path := "C:/notepad.exe", last_active := 17
      is_visible := true }
  , { handle := 3, title := "Editor", process_name := "code.exe"
      executable_path := "C:/code.exe", last_active := 99
      is_visible := true } ]

/-- Witness for C1 at a concrete OS state and cache. -/
theorem trackWindowChanges_self_diff_empty_witness :
    osSample.enumFails = false ∧
    trackWindowChanges osSample cacheSample 99 = .ok ([], []) :=
  ⟨rfl, (trackWindowChanges_self_diff_empty osSample cacheSample 99 rfl).2.2⟩

/-- C8. Every entry produced by `enumerate_windows` carries its
`last_active` timestamp over unchanged from the previous cached
snapshot when its handle is present there, and is stamped with the
enumeration time `now` when it is not. -/
theorem enumerateWindows_last_active_carryover (os : OSState) (cache : Cache)
    (now : Int) (h : os.enumFails = false) (ws : List WindowInfo) (nc : Cache)
    (henum : enumerateWindows os cache now = .ok (ws, nc)) :
    ∀ w ∈ ws,
      (∀ prev, lookupCache cache w.handle = some prev →
        w.last_active = prev.last_active) ∧
      (lookupCache cache w.handle = none → w.last_active = now) := by
  have hws : ws = (os.windows.filter
      (fun w => w.visible && !(w.title = ""))).map (convertEntry cache now) := by
    simp only [enumerateWindows, h, Bool.false_eq_true, if_false,
      Except.ok.injEq, Prod.mk.injEq] at henum
    exact henum.1.symm
  subst hws
  intro w hw
  obtain ⟨o, _, rfl⟩ := List.mem_map.mp hw
  constructor
  · intro prev hprev
    simp only [convertEntry] at hprev ⊢
    simp [hprev]
  · intro hnone
    simp only [convertEntry] at hnone ⊢
    simp [hnone]

/-- Witness for C8: handle 1 keeps timestamp 17 from the cache, handle
3 is stamped with the current time 99. -/
theorem enumerateWindows_last_active_carryover_witness :
    osSample.enumFails = false ∧
    enumerateWindows osSample cacheSample 99 = .ok (wsSample, buildCache wsSample) ∧
    ∀ w ∈ wsSample,
      (∀ prev, lookupCache cacheSample w.handle = some prev →
        w.last_active = prev.last_active) ∧
      (lookupCache cacheSample w.handle = none → w.last_active = 99) :=
  ⟨rfl, by rfl,
    enumerateWindows_last_active_carryover osSample cacheSample 99 rfl
      wsSample (buildCache wsSample) (by rfl)⟩

/-- C9. Every entry produced by `enumerate_windows` has a non-empty
title, has `is_visible = true`, and stems from a window the OS reported
visible at collection time; windows the OS did not report visible are
excluded rather than marked, so `get_visible_windows` returns exactly
the entries of `enumerate_windows`. -/
theorem enumerateWindows_entries_visible (os : OSState) (cache : Cache)
    (now : Int) (h : os.enumFails = false) (ws : List WindowInfo) (nc : Cache)
    (henum : enumerateWindows os cache now = .ok (ws, nc)) :
    (∀ w ∈ ws, w.title ≠ "" ∧ w.is_visible = true ∧
      ∃ o ∈ os.windows, o.handle = w.handle ∧ o.visible = true) ∧
    getVisibleWindows os cache now = .ok ws := by
  have hws : ws = (os.windows.filter
      (fun w => w.visible && !(w.title = ""))).map (convertEntry cache now) := by
    simp only [enumerateWindows, h, Bool.false_eq_true, if_false,
      Except.ok.injEq, Prod.mk.injEq] at henum
    exact henum.1.symm
  have hmem : ∀ w ∈ ws, w.title ≠ "" ∧ w.is_visible = true ∧
      ∃ o ∈ os.windows, o.handle = w.handle ∧ o.visible = true := by
    subst hws
    intro w hw
    obtain ⟨o, ho, rfl⟩ := List.mem_map.mp hw
    obtain ⟨hos, hp⟩ := List.mem_filter.mp ho
    rw [Bool.and_eq_true] at hp
    refine ⟨?_, ?_, o, hos, rfl, hp.1⟩
    · simpa [convertEntry] using hp.2
    · simpa [convertEntry] using hp.1
  refine ⟨hmem, ?_⟩
  have hfilter : ws.filter (fun w => w.is_visible) = ws :=
    List.filter_eq_self.mpr (fun w hw => (hmem w hw).2.1)
  simp [getVisibleWindows, henum, Except.map, hfilter]

/-- Witness for C9 at a concrete OS state: the untitled window 2 and
the invisible window 4 are excluded, and `get_visible_windows` agrees
with `enumerate_windows`. -/
theorem enumerateWindows_entries_visible_witness :
    osSample.enumFails = false ∧
    enumerateWindows osSample cacheSample 99 = .ok (wsSample, buildCache wsSample) ∧
    (∀ w ∈ wsSample, w.title ≠ "" ∧ w.is_visible = true ∧
      ∃ o ∈ osSample.windows, o.handle = w.handle ∧ o.visible = true) ∧
    getVisibleWindows osSample cacheSample 99 = .ok wsSample :=
  ⟨rfl, by rfl,
    enumerateWindows_entries_visible osSample cacheSample 99 rfl
      wsSample (buildCache wsSample) (by rfl)⟩

/-! ## Theorems: dispatcher toggle machine -/

/-- Extending an alternating list with a fresh head that differs from
the old head keeps it alternating. -/
theorem alternatesB_cons (a : Op) (l : List Op) (hl : alternatesB l = true)
    (hh : l.head? ≠ some a) : alternatesB (a :: l) = true := by
  cases l with
  | nil => rfl
  | cons b t =>
    have hab : a ≠ b := by
      intro hEq
      exact hh (by simp [hEq])
    simp [alternatesB, hab, hl]

/-- The machine invariant maintained by toggle presses and successful
completions: the guard is set exactly while an operation is in flight;
the executed operations alternate; an in-flight operation is the most
recently executed one, and the toggle flag / abstract OS visibility
track it (the flag already holds the new value, the OS still the old
one); at rest the flag agrees with the OS and both reflect the last
executed operation. -/
def DispatchInv (s : DispatchState) : Prop :=
  s.guard = s.pending.isSome ∧
  alternatesB s.executed = true ∧
  (match s.pending with
   | some op => s.executed.head? = some op ∧
       s.flag = decide (op = .doShow) ∧ s.osVis = decide (op = .doHide)
   | none => s.flag = s.osVis ∧
       s.osVis = decide (s.executed.head? = some .doShow))

/-- A toggle press or a successful completion preserves the
invariant. -/
theorem stepDispatch_inv (s : DispatchState) (hInv : DispatchInv s)
    (ev : DispatchEv) (hev : ev = .toggle ∨ ev = .opComplete true) :
    DispatchInv (stepDispatch s ev) := by
  obtain ⟨hg, halt, hrest⟩ := hInv
  rcases hev with rfl | rfl
  · cases hguard : s.guard with
    | true =>
      have hstep : stepDispatch s .toggle = { s with dropped := s.dropped + 1 } := by
        simp [stepDispatch, hguard]
      rw [hstep]
      exact ⟨hg, halt, hrest⟩
    | false =>
      have hpending : s.pending = none := by
        cases hp : s.pending with
        | none => rfl
        | some op => rw [hp, hguard] at hg; simp at hg
      have hrest2 := hrest
      rw [hpending] at hrest2
      simp only at hrest2
      obtain ⟨hflag, hvis⟩ := hrest2
      cases hOs : s.osVis with
      | true =>
        have hflag2 : s.flag = true := by rw [hflag, hOs]
        have hhead : s.executed.head? = some .doShow := by
          rw [hOs] at hvis
          exact of_decide_eq_true hvis.symm
        have hstep : stepDispatch s .toggle =
            { s with guard := true, flag := false, pending := some .doHide
                     executed := .doHide :: s.executed } := by
          simp [stepDispatch, hguard, hOs, hflag2]
        rw [hstep]
        refine ⟨rfl, ?_, ?_⟩
        · exact alternatesB_cons _ _ halt (by rw [hhead]; simp)
        · exact ⟨rfl, rfl, hOs⟩
      | false =>
        have hflag2 : s.flag = false := by rw [hflag, hOs]
        have hhead : s.executed.head? ≠ some .doShow := by
          intro hEq
          rw [hOs, hEq] at hvis
          simp at hvis
        have hstep : stepDispatch s .toggle =
            { s with guard := true, flag := true, pending := some .doShow
                     executed := .doShow :: s.executed } := by
          simp [stepDispatch, hguard, hOs, hflag2]
        rw [hstep]
        refine ⟨rfl, ?_, ?_⟩
        · exact alternatesB_cons _ _ halt (by simpa using hhead)
        · exact ⟨rfl, rfl, hOs⟩
  · cases hp : s.pending with
    | none =>
      have hstep : stepDispatch s (.opComplete true) = s := by
        simp [stepDispatch, hp]
      rw [hstep]
      exact ⟨hg, halt, hrest⟩
    | some op =>
      have hrest2 := hrest
      rw [hp] at hrest2
      simp only at hrest2
      obtain ⟨hhead, hflag, hvis⟩ := hrest2
      cases op with
      | doShow =>
        have hstep : stepDispatch s (.opComplete true) =
            { s with osVis := true, pending := none, guard := false } := by
          simp [stepDispatch, hp]
        rw [hstep]
        refine ⟨rfl, halt, ?_⟩
        refine ⟨by simpa using hflag, ?_⟩
        rw [hhead]
        simp
      | doHide =>
        have hstep : stepDispatch s (.opComplete true) =
            { s with osVis := false, pending := none, guard := false } := by
          simp [stepDispatch, hp]
        rw [hstep]
        refine ⟨rfl, halt, ?_⟩
        refine ⟨by simpa using hflag, ?_⟩
        rw [hhead]
        simp

/-- The invariant holds after any run of toggle presses and successful
completions from the initial state. -/
theorem runDispatch_inv (evs : List DispatchEv)
    (h : ∀ e ∈ evs, e = .toggle ∨ e = .opComplete true) :
    DispatchInv (runDispatch initDispatch evs) := by
  have init : DispatchInv initDispatch := by
    refine ⟨rfl, rfl, ?_⟩
    simp [initDispatch]
  have aux : ∀ (l : List DispatchEv) (s : DispatchState), DispatchInv s →
      (∀ e ∈ l, e = .toggle ∨ e = .opComplete true) →
      DispatchInv (runDispatch s l) := by
    intro l
    induction l with
    | nil => intro s hs _; exact hs
    | cons e t ih =>
      intro s hs hl
      have he := hl e (List.mem_cons_self e t)
      have ht : ∀ x ∈ t, x = .toggle ∨ x = .opComplete true :=
        fun x hx => hl x (List.mem_cons_of_mem e hx)
      exact ih (stepDispatch s e) (stepDispatch_inv s hs e he) ht
  exact aux evs initDispatch init h

/-- Counterexample for C2 as stated.  A show operation is dispatched
and never completes (no `opComplete` event occurs), so it is still in
flight; an arrow-key press then arrives — its handler branch stores
`false` into `WINDOW_OPERATION_IN_PROGRESS` — and the next toggle
hotkey is executed rather than dropped: the executed-operation count
rises to 2 and the dropped count stays 0, refuting "any toggle hotkey
arriving while a toggle operation is in flight is dropped". -/
theorem dispatch_drop_violated_by_arrow :
    (runDispatch initDispatch [.toggle]).pending = some .doShow ∧
    (runDispatch initDispatch [.toggle, .arrow]).pending = some .doShow ∧
    (runDispatch initDispatch [.toggle, .arrow, .toggle]).executed
      = [.doHide, .doShow] ∧
    (runDispatch initDispatch [.toggle, .arrow, .toggle]).dropped = 0 := by
  decide

/-- C2 (amended).  For every event sequence consisting only of toggle
presses and successful operation completions — i.e. no arrow / dismiss
/ number / block branch runs while a toggle operation is in flight, and
the OS honours the operations — the executed show/hide operations
alternate (never two shows without an intervening hide and vice versa),
and a toggle press arriving while an operation is in flight is dropped:
it only increments the dropped counter and changes nothing else. -/
theorem dispatch_executed_alternates (evs : List DispatchEv)
    (h : ∀ e ∈ evs, e = .toggle ∨ e = .opComplete true) :
    alternatesB (runDispatch initDispatch evs).executed = true ∧
    ((runDispatch initDispatch evs).pending.isSome →
      stepDispatch (runDispatch initDispatch evs) .toggle
        = { runDispatch initDispatch evs with
            dropped := (runDispatch initDispatch evs).dropped + 1 }) := by
  obtain ⟨hg, halt, _⟩ := runDispatch_inv evs h
  refine ⟨halt, ?_⟩
  intro hpend
  have hguard : (runDispatch initDispatch evs).guard = true := by
    rw [hg, hpend]
  simp [stepDispatch, hguard]

/-- Witness for C2 at a concrete toggle-only event sequence: show,
completion, hide, a dropped in-flight toggle, completion, show. -/
theorem dispatch_executed_alternates_witness :
    (∀ e ∈ ([.toggle, .opComplete true, .toggle, .toggle, .opComplete true,
        .toggle] : List DispatchEv), e = .toggle ∨ e = .opComplete true) ∧
    alternatesB (runDispatch initDispatch
      [.toggle, .opComplete true, .toggle, .toggle, .opComplete true,
        .toggle]).executed = true :=
  ⟨by decide,
    (dispatch_executed_alternates
      [.toggle, .opComplete true, .toggle, .toggle, .opComplete true, .toggle]
      (by decide)).1⟩

/-- Counterexample for C5 as stated.  Run: a toggle dispatches show,
it completes successfully (`OVERLAY_IS_VISIBLE` is now `true` — the
last successfully confirmed value); the next toggle dispatches hide,
which fails.  The claim says `ToggleState` then holds the pre-attempt
value `true`; the code's error arm stores `false` again, so the flag is
`false`. -/
theorem toggle_failure_keeps_false_not_previous :
    (runDispatch initDispatch [.toggle, .opComplete true]).flag = true ∧
    (runDispatch initDispatch [.toggle, .opComplete true, .toggle]).pending
      = some .doHide ∧
    (runDispatch initDispatch
      [.toggle, .opComplete true, .toggle, .opComplete false]).flag = false := by
  decide

/-- C5 (amended).  After a toggle operation fails, `OVERLAY_IS_VISIBLE`
is `false` — for a failed show this restores the pre-attempt value, for
a failed hide it re-stores the value already written when the hide was
dispatched (even if the flag was `true` before the attempt) — the guard
is released, the OS state and executed history are untouched, and the
next toggle press is processed normally (executed, not dropped). -/
theorem dispatch_failure_resets (s : DispatchState) (op : Op)
    (h : s.pending = some op) :
    (stepDispatch s (.opComplete false)).flag = false ∧
    (stepDispatch s (.opComplete false)).guard = false ∧
    (stepDispatch s (.opComplete false)).pending = none ∧
    (stepDispatch s (.opComplete false)).osVis = s.osVis ∧
    (stepDispatch s (.opComplete false)).executed = s.executed ∧
    (stepDispatch (stepDispatch s (.opComplete false)) .toggle).dropped
      = (stepDispatch s (.opComplete false)).dropped ∧
    (stepDispatch (stepDispatch s (.opComplete false)) .toggle).executed.length
      = (stepDispatch s (.opComplete false)).executed.length + 1 := by
  have hstep : stepDispatch s (.opComplete false)
      = { s with flag := false, pending := none, guard := false } := by
    cases op with
    | doShow => simp [stepDispatch, h]
    | doHide => simp [stepDispatch, h]
  rw [hstep]
  refine ⟨rfl, rfl, rfl, rfl, rfl, ?_, ?_⟩ <;>
    · simp only [stepDispatch]
      cases hOs : s.osVis <;> simp

/-- A concrete dispatcher state with a hide operation in flight
(reached from the initial state by toggle, successful completion,
toggle). -/
def hidePendingSample : DispatchState :=
  { guard := true, flag := false, osVis := true, pending := some Op.doHide
    executed := [Op.doHide, Op.doShow], dropped := 0 }

/-- Witness for C5 at a concrete state with a hide in flight. -/
theorem dispatch_failure_resets_witness :
    hidePendingSample.pending = some Op.doHide ∧
    (stepDispatch hidePendingSample (.opComplete false)).flag = false :=
  ⟨rfl, (dispatch_failure_resets hidePendingSample Op.doHide rfl).1⟩

/-! ## Theorems: visibility resolution and shortcut classification -/

/-- A query environment in which the tracked monitor window and the
main window both exist and both answer "hidden". -/
def appAllHidden : QueryApp :=
  [("overlay_monitor_0", some false), ("main", some false)]

/-- Counterexample for C3 as stated.  In `appAllHidden` the OS queries
of steps 1 and 2 are performed and answer "hidden"
(`is_any_window_visible` over the non-empty tracked set is false, and
the main window answers `Ok(false)`), yet with the cached
`OVERLAY_IS_VISIBLE` flag set the resolution reports visible: the
cached flag overrides an answered OS query, contradicting "when an OS
query is performed and answers, its answer (including hidden) is the
result". -/
theorem resolve_flag_overrides_os_answer :
    isAnyWindowVisible appAllHidden ["overlay_monitor_0"] = false ∧
    getQuery appAllHidden "main" = some (some false) ∧
    resolveVisibility appAllHidden ["overlay_monitor_0"] true = true := by
  decide

/-- C3 (amended).  The toggle-path visibility resolution equals the
disjunction of: some tracked window reporting visible (when the
tracked/scanned label list is non-empty), the main window reporting
visible (consulted whenever the first query did not report visible,
not only when the tracked set is empty), and the cached
`OVERLAY_IS_VISIBLE` flag — i.e. the flag fallback applies whenever
the OS queries reported hidden or could not be performed, and an OS
answer of hidden can be overridden by the cached flag. -/
theorem resolveVisibility_eq_disjunction (app : QueryApp)
    (stateLabels : List String) (flag : Bool) :
    resolveVisibility app stateLabels flag =
      ((!(effectiveLabels app stateLabels).isEmpty &&
          isAnyWindowVisible app (effectiveLabels app stateLabels))
        || mainReportsVisible app || flag) := by
  unfold resolveVisibility mainReportsVisible
  cases hE : (effectiveLabels app stateLabels).isEmpty <;>
    cases hb : isAnyWindowVisible app (effectiveLabels app stateLabels) <;>
      rcases hq : getQuery app "main" with _ | (_ | v) <;>
        first
        | (cases v <;> cases flag <;> simp [hE, hb, hq])
        | simp [hE, hb, hq]

/-- C6.  The screenshot combination Super+Shift+S and the dedicated
print key (with any modifier set) are classified into the pass-through
branch — which invokes no controller method and returns without
consuming, independently of any overlay state, which
`classifyPressed` does not even consult — and neither is on the
registered block list; every combination on the block list is
classified into the blocked branch, which likewise invokes no
controller method but consumes the event. -/
theorem screenshot_passthrough_blocklist :
    classifyPressed superShiftS = .screenshotPassThrough ∧
    (∀ m : Mods, classifyPressed (printKey m) = .screenshotPassThrough) ∧
    shortcutsToBlock.contains superShiftS = false ∧
    (∀ e ∈ shortcutsToBlock, e.key ≠ KeyCode.printScreen) ∧
    (∀ e ∈ shortcutsToBlock, classifyPressed e = .blocked) := by
  refine ⟨by decide, ?_, by decide, by decide, by decide⟩
  intro m
  obtain ⟨a, b, c, d⟩ := m
  cases a <;> cases b <;> cases c <;> cases d <;> decide

/-- Witness for C6 at the Win+A block-list entry. -/
theorem screenshot_passthrough_blocklist_witness :
    (⟨{ Mods.none with sup := true }, KeyCode.keyA⟩ : SKey) ∈ shortcutsToBlock ∧
    classifyPressed ⟨{ Mods.none with sup := true }, KeyCode.keyA⟩ = .blocked :=
  ⟨by decide,
    screenshot_passthrough_blocklist.2.2.2.2
      ⟨{ Mods.none with sup := true }, KeyCode.keyA⟩ (by decide)⟩

/-! ## Theorems: multi-monitor manager and overlay commands -/

/-- `show_all_windows` returns `Ok(())` whatever happens per window. -/
theorem showAllWindows_result_ok (world : World)
    (monsRes : Except String (List Bool)) (labels : List String) :
    (showAllWindows world monsRes labels).2.2 = .ok () := by
  cases monsRes <;> rfl

/-- `hide_all_windows` returns `Ok(())` whatever happens per window. -/
theorem hideAllWindows_result_ok (world : World) (labels : List String) :
    (hideAllWindows world labels).2.2 = .ok () := rfl

/-- C10. `show_all_windows` and `hide_all_windows` return `Ok(())` for
every input: per-window failures (missing window, failed positioning,
failed show/hide, monitor-enumeration failure) are only logged and
never propagated, so a caller can never observe an `Err` from either
operation. -/
theorem showAll_hideAll_never_err (world world2 : World)
    (monsRes : Except String (List Bool)) (labels labels2 : List String) :
    (showAllWindows world monsRes labels).2.2 = .ok () ∧
    (hideAllWindows world2 labels2).2.2 = .ok () :=
  ⟨showAllWindows_result_ok world monsRes labels,
    hideAllWindows_result_ok world2 labels2⟩

/-- Updating a window's state does not affect lookups of other
labels. -/
theorem getWin_setWin_ne (world : World) (l l' : String) (w : WinB)
    (h : l' ≠ l) : getWin (setWin world l w) l' = getWin world l' := by
  induction world with
  | nil => rfl
  | cons p t ih =>
    by_cases hp : p.1 = l
    · simp only [setWin, List.map_cons, hp, if_true, getWin, List.find?]
      have : (decide (l = l')) = false := by
        simp [Ne.symm h]
      simp only [this, Bool.false_eq_true, if_false]
      have hp' : (decide (p.1 = l')) = false := by
        simp [hp, Ne.symm h]
      simp only [getWin, List.find?, hp', Bool.false_eq_true, if_false] at ih ⊢
      simpa [setWin] using ih
    · simp only [setWin, List.map_cons, hp, if_false, getWin, List.find?]
      by_cases hq : p.1 = l'
      · simp [hq]
      · have hq' : (decide (p.1 = l')) = false := by simp [hq]
        simp only [hq', Bool.false_eq_true, if_false]
        simpa [getWin, setWin] using ih

/-- Updating an existing window's state makes lookups of its label
return the new state. -/
theorem getWin_setWin_self (world : World) (l : String) (w w' : WinB)
    (h : getWin world l = some w) :
    getWin (setWin world l w') l = some w' := by
  induction world with
  | nil => simp [getWin] at h
  | cons p t ih =>
    by_cases hp : p.1 = l
    · simp [setWin, getWin, List.find?, hp]
    · have hp' : (decide (p.1 = l)) = false := by simp [hp]
      simp only [getWin, List.find?, hp', Bool.false_eq_true, if_false] at h
      simp only [setWin, List.map_cons, hp, if_false, getWin, List.find?, hp',
        Bool.false_eq_true, if_false]
      simpa [getWin, setWin] using ih h

/-- Replacing a window's state by one with the same visibility leaves
every window's reported visibility unchanged. -/
theorem visOf_setWin_same_vis (world : World) (l : String) (w w' : WinB)
    (h : getWin world l = some w) (hv : w'.visible = w.visible) :
    ∀ l', visOf (setWin world l w') l' = visOf world l' := by
  intro l'
  by_cases hl : l' = l
  · subst hl
    rw [visOf, visOf, getWin_setWin_self world l' w w' h, h]
    simp [hv]
  · rw [visOf, visOf, getWin_setWin_ne world l l' w' hl]

/-- A visible window stays visible through `showOneWindow`: a show
call can only turn a window visible. -/
theorem showOneWindow_keeps_visible (l : String) (doPos : Bool) (w : WinB)
    (h : w.visible = true) : (showOneWindow l doPos w).1.visible = true := by
  by_cases hse : w.showErr = true <;>
    simp [showOneWindow, applyShow, h, hse]

/-- The show loop leaves every window's visibility unchanged when all
processed windows that exist are already visible: `show()` can only
turn a window visible, never invisible. -/
theorem showAllGo_preserves_vis (labels : List String) :
    ∀ (world : World) (mons : List Bool) (idx : Nat),
    (∀ l ∈ labels, visOf world l ≠ some false) →
    ∀ l', visOf (showAllGo world mons idx labels).1 l' = visOf world l' := by
  induction labels with
  | nil => intro world mons idx _ l'; rfl
  | cons a rest ih =>
    intro world mons idx h l'
    have ha := h a (List.mem_cons_self a rest)
    have hrest : ∀ l ∈ rest, visOf world l ≠ some false :=
      fun l hl => h l (List.mem_cons_of_mem a hl)
    cases hw : getWin world a with
    | none =>
      simp only [showAllGo, hw]
      exact ih world mons (idx + 1) hrest l'
    | some w =>
      have hvis : w.visible = true := by
        by_contra hfalse
        have hfv : w.visible = false := Bool.not_eq_true _ |>.mp hfalse
        apply ha
        rw [visOf, hw]
        simp [hfv]
      have hone : (showOneWindow a (mons.getD idx false) w).1.visible
          = w.visible := by
        rw [hvis]
        exact showOneWindow_keeps_visible a _ w hvis
      have hpoint := visOf_setWin_same_vis world a w _ hw hone
      have hrest2 : ∀ l ∈ rest,
          visOf (setWin world a (showOneWindow a (mons.getD idx false) w).1) l
            ≠ some false :=
        fun l hl => (hpoint l) ▸ hrest l hl
      simp only [showAllGo, hw]
      rw [ih _ mons (idx + 1) hrest2 l', hpoint l']

/-- The fallback show loop (no monitor info) likewise leaves already
visible windows visible. -/
theorem showAllFallbackGo_preserves_vis (labels : List String) :
    ∀ (world : World),
    (∀ l ∈ labels, visOf world l ≠ some false) →
    ∀ l', visOf (showAllFallbackGo world labels).1 l' = visOf world l' := by
  induction labels with
  | nil => intro world _ l'; rfl
  | cons a rest ih =>
    intro world h l'
    have ha := h a (List.mem_cons_self a rest)
    have hrest : ∀ l ∈ rest, visOf world l ≠ some false :=
      fun l hl => h l (List.mem_cons_of_mem a hl)
    cases hw : getWin world a with
    | none =>
      simp only [showAllFallbackGo, hw]
      exact ih world hrest l'
    | some w =>
      have hvis : w.visible = true := by
        by_contra hfalse
        have hfv : w.visible = false := Bool.not_eq_true _ |>.mp hfalse
        apply ha
        rw [visOf, hw]
        simp [hfv]
      have hv2 : (if ({ w with fullscreen := false } : WinB).showErr
          then ({ w with fullscreen := false } : WinB)
          else applyShow { w with fullscreen := false }).visible = w.visible := by
        by_cases hse : w.showErr = true <;> simp [hse, applyShow, hvis]
      have hpoint := visOf_setWin_same_vis world a w _ hw hv2
      have hrest2 : ∀ l ∈ rest,
          visOf (setWin world a (if ({ w with fullscreen := false} : WinB).showErr
            then ({ w with fullscreen := false } : WinB)
            else applyShow { w with fullscreen := false })) l ≠ some false :=
        fun l hl => (hpoint l) ▸ hrest l hl
      simp only [showAllFallbackGo, hw]
      rw [ih _ hrest2 l', hpoint l']

/-- `show_all_windows` leaves every window's visibility unchanged when
the labelled windows that exist are already visible. -/
theorem showAllWindows_preserves_vis (world : World)
    (monsRes : Except String (List Bool)) (labels : List String)
    (h : ∀ l ∈ labels, visOf world l ≠ some false) :
    ∀ l', visOf (showAllWindows world monsRes labels).1 l' = visOf world l' := by
  cases monsRes with
  | ok mons => exact showAllGo_preserves_vis labels world mons 0 h
  | error e => exact showAllFallbackGo_preserves_vis labels world h

/-- The hide loop leaves every window's visibility unchanged when the
labelled windows that exist are already hidden: `hide()` can only turn
a window invisible. -/
theorem hideAllGo_preserves_vis (labels : List String) :
    ∀ (world : World),
    (∀ l ∈ labels, visOf world l ≠ some true) →
    ∀ l', visOf (hideAllGo world labels).1 l' = visOf world l' := by
  induction labels with
  | nil => intro world _ l'; rfl
  | cons a rest ih =>
    intro world h l'
    have ha := h a (List.mem_cons_self a rest)
    have hrest : ∀ l ∈ rest, visOf world l ≠ some true :=
      fun l hl => h l (List.mem_cons_of_mem a hl)
    cases hw : getWin world a with
    | none =>
      simp only [hideAllGo, hw]
      exact ih world hrest l'
    | some w =>
      have hvis : w.visible = false := by
        by_contra htrue
        have hfv : w.visible = true := Bool.not_eq_false _ |>.mp htrue
        apply ha
        rw [visOf, hw]
        simp [hfv]
      have hvis2 : (applyHide { applyHide w with fullscreen := false }).visible
          = false := by
        simp [applyHide, hvis]
      have hpoint := visOf_setWin_same_vis world a w
        (applyHide { applyHide w with fullscreen := false }) hw
        (by rw [hvis2, hvis])
      have hrest2 : ∀ l ∈ rest,
          visOf (setWin world a
            (applyHide { applyHide w with fullscreen := false })) l
            ≠ some true :=
        fun l hl => (hpoint l) ▸ hrest l hl
      simp only [hideAllGo, hw]
      rw [if_neg (by rw [hvis2]; exact Bool.false_ne_true)]
      dsimp only
      rw [ih _ hrest2 l', hpoint l']

/-- The post-hide verification pass changes nothing when the labelled
windows are already hidden. -/
theorem hideVerifyGo_preserves_vis (labels : List String) :
    ∀ (world : World),
    (∀ l ∈ labels, visOf world l ≠ some true) →
    ∀ l', visOf (hideVerifyGo world labels).1 l' = visOf world l' := by
  induction labels with
  | nil => intro world _ l'; rfl
  | cons a rest ih =>
    intro world h l'
    have ha := h a (List.mem_cons_self a rest)
    have hrest : ∀ l ∈ rest, visOf world l ≠ some true :=
      fun l hl => h l (List.mem_cons_of_mem a hl)
    cases hw : getWin world a with
    | none =>
      simp only [hideVerifyGo, hw]
      exact ih world hrest l'
    | some w =>
      have hvis : w.visible = false := by
        by_contra htrue
        have hfv : w.visible = true := Bool.not_eq_false _ |>.mp htrue
        apply ha
        rw [visOf, hw]
        simp [hfv]
      simp only [hideVerifyGo, hw]
      rw [if_neg (by rw [hvis]; exact Bool.false_ne_true)]
      dsimp only
      exact ih world hrest l'

/-- The aggressive pre-show main-window hide changes nothing when the
main window is already hidden or missing. -/
theorem hideMainBeforeShow_preserves_vis (world : World)
    (h : visOf world "main" ≠ some true) :
    ∀ l', visOf (hideMainBeforeShow world).1 l' = visOf world l' := by
  intro l'
  cases hw : getWin world "main" with
  | none => simp only [hideMainBeforeShow, hw]
  | some w =>
    have hvis : w.visible = false := by
      by_contra htrue
      have hfv : w.visible = true := Bool.not_eq_false _ |>.mp htrue
      apply h
      rw [visOf, hw]
      simp [hfv]
    have hvis2 : (applyHide { applyHide w with fullscreen := false }).visible
        = false := by
      simp [applyHide, hvis]
    simp only [hideMainBeforeShow, hw]
    rw [if_neg (by rw [hvis2]; exact Bool.false_ne_true)]
    dsimp only
    exact visOf_setWin_same_vis world "main" w _ hw (by rw [hvis2, hvis]) l'

/-- The post-show main-window recheck changes nothing when the main
window is already hidden or missing. -/
theorem recheckMainHidden_preserves_vis (world : World)
    (h : visOf world "main" ≠ some true) :
    ∀ l', visOf (recheckMainHidden world).1 l' = visOf world l' := by
  intro l'
  cases hw : getWin world "main" with
  | none => simp only [recheckMainHidden, hw]
  | some w =>
    have hvis : w.visible = false := by
      by_contra htrue
      have hfv : w.visible = true := Bool.not_eq_false _ |>.mp htrue
      apply h
      rw [visOf, hw]
      simp [hfv]
    simp only [recheckMainHidden, hw]
    rw [if_neg (by rw [hvis]; exact Bool.false_ne_true)]

/-- The final main-window hide of `hide_overlay` changes nothing when
the main window is already hidden or missing. -/
theorem hideMainFinal_preserves_vis (world : World)
    (h : visOf world "main" ≠ some true) :
    ∀ l', visOf (hideMainFinal world).1 l' = visOf world l' := by
  intro l'
  cases hw : getWin world "main" with
  | none => simp only [hideMainFinal, hw]
  | some w =>
    have hvis : w.visible = false := by
      by_contra htrue
      have hfv : w.visible = true := Bool.not_eq_false _ |>.mp htrue
      apply h
      rw [visOf, hw]
      simp [hfv]
    have hvis2 : (applyHide { applyHide w with fullscreen := false }).visible
        = false := by
      simp [applyHide, hvis]
    simp only [hideMainFinal, hw]
    rw [if_neg (by rw [hvis2]; exact Bool.false_ne_true)]
    dsimp only
    exact visOf_setWin_same_vis world "main" w _ hw (by rw [hvis2, hvis]) l'

/-- A window state with the overlay monitor window visible and the main
window hidden — the overlay is `Shown`. -/
def shownWorld : World :=
  [ ("overlay_monitor_0",
      { visible := true, fullscreen := false, showErr := false
        showStuck := false, hideStuck := false })
  , ("main",
      { visible := false, fullscreen := false, showErr := false
        showStuck := false, hideStuck := false }) ]

/-- A window state with every overlay window hidden — the overlay is
`Hidden`. -/
def hiddenWorld : World :=
  [ ("overlay_monitor_0",
      { visible := false, fullscreen := false, showErr := false
        showStuck := false, hideStuck := false })
  , ("main",
      { visible := false, fullscreen := false, showErr := false
        showStuck := false, hideStuck := false }) ]

/-- Counterexample for C4 as stated.  With the overlay already `Shown`
(monitor window visible, main hidden), `show_overlay` still performs
window mutations — its trace contains the `show()` call on the monitor
window and further mutating calls — rather than completing as a no-op
without window mutation.  (It does complete with `Ok`.) -/
theorem showOverlay_when_shown_still_mutates :
    visOf shownWorld "overlay_monitor_0" = some true ∧
    visOf shownWorld "main" = some false ∧
    Ev.showCall "overlay_monitor_0"
      ∈ (showOverlay shownWorld ["overlay_monitor_0"]
          (.ok [true]) true true true).2.1 ∧
    ((showOverlay shownWorld ["overlay_monitor_0"]
        (.ok [true]) true true true).2.1.filter isMutationEv).length ≥ 1 ∧
    (showOverlay shownWorld ["overlay_monitor_0"]
        (.ok [true]) true true true).2.2 = .ok () := by
  refine ⟨by decide, by decide, by decide, by decide, rfl⟩

/-- C4 (amended).  `show_overlay` on an already-`Shown` state and
`hide_overlay` on an already-`Hidden` state are idempotent in effect —
the OS-reported visibility of every window is exactly what it was
before the call — but not free of window mutations: the operations are
re-executed (see the counterexample), they just cannot change any
visibility because `show()` can only turn an already visible window
visible and `hide()` an already hidden window hidden. -/
theorem overlay_idempotent_in_visibility
    (world : World) (stateLabels : List String)
    (monsRes : Except String (List Bool)) (vdOk hwndOk spanOk : Bool)
    (hBranch : (!(finalLabelsShow world stateLabels).isEmpty &&
      (finalLabelsShow world stateLabels).any isMonitorLabel) = true)
    (hShown : ∀ l ∈ finalLabelsShow world stateLabels,
      visOf world l ≠ some false)
    (hMain : visOf world "main" ≠ some true)
    (world2 : World) (stateLabels2 : List String)
    (hHidden : ∀ l ∈ finalLabelsHide world2 stateLabels2,
      visOf world2 l ≠ some true)
    (hMain2 : visOf world2 "main" ≠ some true) :
    (∀ l, visOf (showOverlay world stateLabels monsRes vdOk hwndOk spanOk).1 l
      = visOf world l) ∧
    (∀ l, visOf (hideOverlay world2 stateLabels2).1 l = visOf world2 l) := by
  constructor
  · intro l
    have p1 := hideMainBeforeShow_preserves_vis world hMain
    have hShown1 : ∀ x ∈ finalLabelsShow world stateLabels,
        visOf (hideMainBeforeShow world).1 x ≠ some false :=
      fun x hx => (p1 x) ▸ hShown x hx
    have p2 := showAllWindows_preserves_vis (hideMainBeforeShow world).1
      monsRes (finalLabelsShow world stateLabels) hShown1
    have hMain1 : visOf (showAllWindows (hideMainBeforeShow world).1
        monsRes (finalLabelsShow world stateLabels)).1 "main" ≠ some true := by
      rw [p2 "main", p1 "main"]
      exact hMain
    have p3 := recheckMainHidden_preserves_vis _ hMain1
    simp only [showOverlay]
    rw [if_pos hBranch]
    simp only [showAllWindows_result_ok]
    rw [p3 l, p2 l, p1 l]
  · intro l
    by_cases hb : (!(finalLabelsHide world2 stateLabels2).isEmpty &&
        (finalLabelsHide world2 stateLabels2).any isMonitorLabel) = true
    · have p1 := hideAllGo_preserves_vis (finalLabelsHide world2 stateLabels2)
        world2 hHidden
      have hHidden1 : ∀ x ∈ finalLabelsHide world2 stateLabels2,
          visOf (hideAllGo world2 (finalLabelsHide world2 stateLabels2)).1 x
            ≠ some true :=
        fun x hx => (p1 x) ▸ hHidden x hx
      have p2 := hideVerifyGo_preserves_vis (finalLabelsHide world2 stateLabels2)
        _ hHidden1
      have hMain1 : visOf (hideVerifyGo
          (hideAllGo world2 (finalLabelsHide world2 stateLabels2)).1
          (finalLabelsHide world2 stateLabels2)).1 "main" ≠ some true := by
        rw [p2 "main", p1 "main"]
        exact hMain2
      have p3 := hideMainFinal_preserves_vis _ hMain1
      simp only [hideOverlay]
      rw [if_pos hb]
      simp only [hideAllWindows]
      rw [p3 l, p2 l, p1 l]
    · have p3 := hideMainFinal_preserves_vis world2 hMain2
      simp only [hideOverlay]
      rw [if_neg hb]
      exact p3 l

/-- Witness for C4 at the concrete shown/hidden states. -/
theorem overlay_idempotent_in_visibility_witness :
    ((!(finalLabelsShow shownWorld ["overlay_monitor_0"]).isEmpty &&
      (finalLabelsShow shownWorld ["overlay_monitor_0"]).any isMonitorLabel)
        = true) ∧
    (∀ l ∈ finalLabelsShow shownWorld ["overlay_monitor_0"],
      visOf shownWorld l ≠ some false) ∧
    visOf shownWorld "main" ≠ some true ∧
    (∀ l ∈ finalLabelsHide hiddenWorld ["overlay_monitor_0"],
      visOf hiddenWorld l ≠ some true) ∧
    visOf hiddenWorld "main" ≠ some true ∧
    visOf (showOverlay shownWorld ["overlay_monitor_0"]
      (.ok [true]) true true true).1 "overlay_monitor_0"
      = visOf shownWorld "overlay_monitor_0" ∧
    visOf (hideOverlay hiddenWorld ["overlay_monitor_0"]).1 "overlay_monitor_0"
      = visOf hiddenWorld "overlay_monitor_0" :=
  ⟨by decide, by decide, by decide, by decide, by decide,
    (overlay_idempotent_in_visibility shownWorld ["overlay_monitor_0"]
      (.ok [true]) true true true (by decide) (by decide) (by decide)
      hiddenWorld ["overlay_monitor_0"] (by decide) (by decide)).1
      "overlay_monitor_0",
    (overlay_idempotent_in_visibility shownWorld ["overlay_monitor_0"]
      (.ok [true]) true true true (by decide) (by decide) (by decide)
      hiddenWorld ["overlay_monitor_0"] (by decide) (by decide)).2
      "overlay_monitor_0"⟩

/-- Number of `show()` calls `showOneWindow` issues: one when `show()`
errs, one when the window is visible at the verification re-query, two
(the retry) when it is not. -/
theorem showOneWindow_show_count (l : String) (doPos : Bool) (w : WinB) :
    (showOneWindow l doPos w).2.count (Ev.showCall l)
      = (if w.showErr = true then 1
         else if (applyShow { w with fullscreen := false }).visible = true
           then 1 else 2) := by
  by_cases hse : w.showErr = true <;>
    by_cases hst : w.showStuck = true <;>
      by_cases hvv : w.visible = true <;>
        by_cases hp : doPos = true <;>
          simp [showOneWindow, applyShow, hse, hst, hvv, hp,
            List.count_append, List.count_cons]

/-- `showOneWindow` re-queries visibility exactly once after a
successful `show()`, and not at all when `show()` errs. -/
theorem showOneWindow_query_count (l : String) (doPos : Bool) (w : WinB) :
    (showOneWindow l doPos w).2.count (Ev.queryVisible l)
      = (if w.showErr = true then 0 else 1) := by
  by_cases hse : w.showErr = true <;>
    by_cases hst : w.showStuck = true <;>
      by_cases hvv : w.visible = true <;>
        by_cases hp : doPos = true <;>
          simp [showOneWindow, applyShow, hse, hst, hvv, hp,
            List.count_append, List.count_cons]

/-- After a successful `show()` call the trace continues contiguously
with the focus calls, the 100 ms sleep and the visibility re-query. -/
theorem showOneWindow_verify_segment (l : String) (doPos : Bool) (w : WinB)
    (h : w.showErr = false) :
    List.IsInfix
      [Ev.showCall l, Ev.winApiFocus l, Ev.setFocus l, Ev.sleepMs 100,
        Ev.queryVisible l]
      (showOneWindow l doPos w).2 := by
  refine ⟨(if doPos then [Ev.setSize l, Ev.setPosition l] else [])
      ++ [Ev.setAlwaysOnTop l true, Ev.setFullscreen l false, Ev.setFocusable l],
    if (applyShow { w with fullscreen := false }).visible = true then []
      else [Ev.showCall l], ?_⟩
  by_cases hst : w.showStuck = true <;>
    by_cases hvv : w.visible = true <;>
      by_cases hp : doPos = true <;>
        simp [showOneWindow, applyShow, h, hst, hvv, hp]

/-- `showOneWindow` for a different label issues no show or query calls
mentioning `l`. -/
theorem showOneWindow_count_ne (a l : String) (doPos : Bool) (w : WinB)
    (hne : a ≠ l) :
    (showOneWindow a doPos w).2.count (Ev.showCall l) = 0 ∧
    (showOneWindow a doPos w).2.count (Ev.queryVisible l) = 0 := by
  by_cases hse : w.showErr = true <;>
    by_cases hst : w.showStuck = true <;>
      by_cases hvv : w.visible = true <;>
        by_cases hp : doPos = true <;>
          simp [showOneWindow, applyShow, hse, hst, hvv, hp,
            List.count_append, List.count_cons, hne]

/-- Labels other than `l` contribute no show or query calls for `l` to
the show-loop trace. -/
theorem showAllGo_count_notmem (labels : List String) :
    ∀ (world : World) (mons : List Bool) (idx : Nat) (l : String), l ∉ labels →
    (showAllGo world mons idx labels).2.count (Ev.showCall l) = 0 ∧
    (showAllGo world mons idx labels).2.count (Ev.queryVisible l) = 0 := by
  induction labels with
  | nil => intro world mons idx l _; exact ⟨rfl, rfl⟩
  | cons a rest ih =>
    intro world mons idx l hl
    have hne : a ≠ l := fun hEq => hl (hEq ▸ List.mem_cons_self a rest)
    have hlr : l ∉ rest := fun hr => hl (List.mem_cons_of_mem a hr)
    cases hw : getWin world a with
    | none =>
      simp only [showAllGo, hw]
      exact ih world mons (idx + 1) l hlr
    | some w =>
      have h1 := showOneWindow_count_ne a l (mons.getD idx false) w hne
      have h2 := ih (setWin world a (showOneWindow a (mons.getD idx false) w).1)
        mons (idx + 1) l hlr
      simp only [showAllGo, hw]
      constructor
      · dsimp only
        rw [List.count_append, h1.1, h2.1]
      · dsimp only
        rw [List.count_append, h1.2, h2.2]

/-- With distinct labels, the show-loop trace contains exactly the show
and query calls for `l` that its own `showOneWindow` block issues. -/
theorem showAllGo_count_mem (labels : List String) :
    ∀ (world : World) (mons : List Bool) (idx i : Nat) (l : String) (w : WinB),
    labels.Nodup → labels.get? i = some l → getWin world l = some w →
    (showAllGo world mons idx labels).2.count (Ev.showCall l)
      = (showOneWindow l (mons.getD (idx + i) false) w).2.count (Ev.showCall l) ∧
    (showAllGo world mons idx labels).2.count (Ev.queryVisible l)
      = (showOneWindow l (mons.getD (idx + i) false) w).2.count
          (Ev.queryVisible l) := by
  induction labels with
  | nil => intro _ _ _ i l w _ hget _; simp at hget
  | cons a rest ih =>
    intro world mons idx i l w hnd hget hw
    cases i with
    | zero =>
      have ha : a = l := by simpa using hget
      subst ha
      have hz : a ∉ rest := (List.nodup_cons.mp hnd).1
      have h0 := showAllGo_count_notmem rest
        (setWin world a (showOneWindow a (mons.getD idx false) w).1)
        mons (idx + 1) a hz
      simp only [showAllGo, hw]
      constructor
      · dsimp only
        rw [List.count_append, h0.1]
        simp
      · dsimp only
        rw [List.count_append, h0.2]
        simp
    | succ j =>
      have hget2 : rest.get? j = some l := by simpa using hget
      have hlr : l ∈ rest := List.get?_mem hget2
      have hne : a ≠ l := fun hEq => ((List.nodup_cons.mp hnd).1) (hEq ▸ hlr)
      have hnd2 := (List.nodup_cons.mp hnd).2
      have harith : idx + (j + 1) = idx + 1 + j := by omega
      cases hwa : getWin world a with
      | none =>
        have hrec := ih world mons (idx + 1) j l w hnd2 hget2 hw
        simp only [showAllGo, hwa]
        rw [harith]
        exact hrec
      | some wa =>
        have hga : getWin (setWin world a
            (showOneWindow a (mons.getD idx false) wa).1) l = some w := by
          rw [getWin_setWin_ne world a l _ (Ne.symm hne)]
          exact hw
        have hrec := ih (setWin world a
          (showOneWindow a (mons.getD idx false) wa).1) mons (idx + 1) j l w
          hnd2 hget2 hga
        have hone := showOneWindow_count_ne a l (mons.getD idx false) wa hne
        simp only [showAllGo, hwa]
        rw [harith]
        constructor
        · dsimp only
          rw [List.count_append, hone.1, hrec.1]
          omega
        · dsimp only
          rw [List.count_append, hone.2, hrec.2]
          omega

/-- With distinct labels, each existing labelled window's
`showOneWindow` block occurs contiguously inside the show-loop
trace. -/
theorem showAllGo_block_segment (labels : List String) :
    ∀ (world : World) (mons : List Bool) (idx i : Nat) (l : String) (w : WinB),
    labels.Nodup → labels.get? i = some l → getWin world l = some w →
    List.IsInfix (showOneWindow l (mons.getD (idx + i) false) w).2
      (showAllGo world mons idx labels).2 := by
  induction labels with
  | nil => intro _ _ _ i l w _ hget _; simp at hget
  | cons a rest ih =>
    intro world mons idx i l w hnd hget hw
    cases i with
    | zero =>
      have ha : a = l := by simpa using hget
      subst ha
      simp only [showAllGo, hw]
      rw [Nat.add_zero]
      exact ⟨[], (showAllGo (setWin world a
        (showOneWindow a (mons.getD idx false) w).1) mons (idx + 1) rest).2,
        by simp⟩
    | succ j =>
      have hget2 : rest.get? j = some l := by simpa using hget
      have hlr : l ∈ rest := List.get?_mem hget2
      have hne : a ≠ l := fun hEq => ((List.nodup_cons.mp hnd).1) (hEq ▸ hlr)
      have hnd2 := (List.nodup_cons.mp hnd).2
      have harith : idx + (j + 1) = idx + 1 + j := by omega
      cases hwa : getWin world a with
      | none =>
        have hrec := ih world mons (idx + 1) j l w hnd2 hget2 hw
        simp only [showAllGo, hwa]
        rw [harith]
        exact hrec
      | some wa =>
        have hga : getWin (setWin world a
            (showOneWindow a (mons.getD idx false) wa).1) l = some w := by
          rw [getWin_setWin_ne world a l _ (Ne.symm hne)]
          exact hw
        have hrec := ih (setWin world a
          (showOneWindow a (mons.getD idx false) wa).1) mons (idx + 1) j l w
          hnd2 hget2 hga
        simp only [showAllGo, hwa]
        rw [harith]
        exact hrec.trans ((List.suffix_append _ _).isInfix)

/-- A monitor-overlay window on which `show()` works normally. -/
def plainMonitorWorld : World :=
  [("overlay_monitor_0",
    { visible := false, fullscreen := false, showErr := false
      showStuck := false, hideStuck := false })]

/-- Counterexample for C7 as stated.  When monitor enumeration fails,
`show_all_windows` takes its fallback branch (multi_monitor.rs lines
204-214): the OS show primitive is called on the labelled window, but
no sleep, no visibility re-query and no retry follow — so the
verify-and-retry protocol does not hold for every labelled window on
every run of `show_all`. -/
theorem showAll_no_verify_on_monitor_enum_failure :
    (showAllWindows plainMonitorWorld (.error "Failed to get monitors")
      ["overlay_monitor_0"]).2.1.count (Ev.showCall "overlay_monitor_0") = 1 ∧
    (showAllWindows plainMonitorWorld (.error "Failed to get monitors")
      ["overlay_monitor_0"]).2.1.count (Ev.sleepMs 100) = 0 ∧
    (showAllWindows plainMonitorWorld (.error "Failed to get monitors")
      ["overlay_monitor_0"]).2.1.count
        (Ev.queryVisible "overlay_monitor_0") = 0 := by
  decide

/-- C7 (amended).  In `show_all_windows` with monitor enumeration
succeeding and distinct labels, every labelled window that exists is
processed (its block occurs in the batch trace regardless of other
windows' failures), and for each: when its `show()` call returns `Ok`,
the trace continues contiguously with the focus calls, the fixed 100 ms
sleep and the visibility re-query, and the show call is issued once
more — exactly once, never more — when the window is still not
visible, so the whole batch issues one `show()` for that window when it
errs or verifies visible and two when the retry fires, never more than
two; per-window failures do not abort the batch, whose result is
`Ok(())` regardless. -/
theorem showAllWindows_verify_retry_once (world : World) (mons : List Bool)
    (labels : List String) (hnd : labels.Nodup) (i : Nat) (l : String)
    (w : WinB) (hget : labels.get? i = some l)
    (hw : getWin world l = some w) :
    ((showAllWindows world (.ok mons) labels).2.1.count (Ev.showCall l)
      = (if w.showErr = true then 1
         else if (applyShow { w with fullscreen := false }).visible = true
           then 1 else 2)) ∧
    (showAllWindows world (.ok mons) labels).2.1.count (Ev.showCall l) ≤ 2 ∧
    ((showAllWindows world (.ok mons) labels).2.1.count (Ev.queryVisible l)
      = (if w.showErr = true then 0 else 1)) ∧
    (w.showErr = false →
      List.IsInfix [Ev.showCall l, Ev.winApiFocus l, Ev.setFocus l,
        Ev.sleepMs 100, Ev.queryVisible l]
        (showAllWindows world (.ok mons) labels).2.1) ∧
    (showAllWindows world (.ok mons) labels).2.2 = .ok () := by
  have htr : (showAllWindows world (.ok mons) labels).2.1
      = (showAllGo world mons 0 labels).2 := rfl
  have hcounts := showAllGo_count_mem labels world mons 0 i l w hnd hget hw
  have hzero : (0 : Nat) + i = i := Nat.zero_add i
  have hshow : (showAllGo world mons 0 labels).2.count (Ev.showCall l)
      = (if w.showErr = true then 1
         else if (applyShow { w with fullscreen := false }).visible = true
           then 1 else 2) := by
    rw [hcounts.1, showOneWindow_show_count]
  have hquery : (showAllGo world mons 0 labels).2.count (Ev.queryVisible l)
      = (if w.showErr = true then 0 else 1) := by
    rw [hcounts.2, showOneWindow_query_count]
  refine ⟨by rw [htr]; exact hshow, ?_, by rw [htr]; exact hquery, ?_, ?_⟩
  · rw [htr, hshow]
    split
    · omega
    · split <;> omega
  · intro hok
    rw [htr]
    exact (showOneWindow_verify_segment l (mons.getD (0 + i) false) w hok).trans
      (showAllGo_block_segment labels world mons 0 i l w hnd hget hw)
  · exact showAllWindows_result_ok world (.ok mons) labels

/-- A monitor-overlay window whose `show()` succeeds but silently fails
to make it visible. -/
def stuckMonitorWorld : World :=
  [("overlay_monitor_0",
    { visible := false, fullscreen := false, showErr := false
      showStuck := true, hideStuck := false })]

/-- The window state stored in `stuckMonitorWorld`. -/
def stuckWin : WinB :=
  { visible := false, fullscreen := false, showErr := false
    showStuck := true, hideStuck := false }

/-- Witness for C7: on a stuck window the batch issues exactly two show
calls — the original and the single retry. -/
theorem showAllWindows_verify_retry_once_witness :
    (["overlay_monitor_0"] : List String).Nodup ∧
    (["overlay_monitor_0"] : List String).get? 0 = some "overlay_monitor_0" ∧
    getWin stuckMonitorWorld "overlay_monitor_0" = some stuckWin ∧
    (showAllWindows stuckMonitorWorld (.ok [true])
      ["overlay_monitor_0"]).2.1.count
        (Ev.showCall "overlay_monitor_0") = 2 :=
  ⟨by decide, by decide, by decide,
    ((showAllWindows_verify_retry_once stuckMonitorWorld [true]
      ["overlay_monitor_0"] (by decide) 0 "overlay_monitor_0" stuckWin
      (by decide) (by decide)).1).trans (by decide)⟩
